import Mathlib

/-!
Verification of the fuel-stop planning core of the `optimised-route`
repository (`fuel_optimizer.py`).

Numbers are modelled by `ℚ`.  The haversine distance (transcendental, in
`routing.py`) enters the projector only through calls of the shape
`haversine(lat1, lon1, lat2, lon2)`, so every definition that needs it is
parametrised by an arbitrary distance function `dist : ℚ → ℚ → ℚ → ℚ → ℚ`;
all theorems hold for every such function.  Route coordinates are
`(longitude, latitude)` pairs, as in the GeoJSON input.  Python's stable
`list.sort` is modelled by a stable insertion sort (`sort_by_dfs`); a stable
sort for a total key order is extensionally unique, so this is faithful.
Python's `round(x, n)` (banker's rounding) is modelled by `roundTo`.
The unused `start_coords` / `end_coords` parameters of the Python methods
are omitted.
-/

/-- A raw fuel-station record; `lat`/`lon` are optional because the source
skips stations missing either key. -/
structure Station where
  name : String
  price : ℚ
  lat : Option ℚ
  lon : Option ℚ
deriving DecidableEq

/-- A station annotated by `_find_stations_near_route` with its
distance along the route and its distance to the route. -/
structure RouteStation where
  station : Station
  distance_from_start : ℚ
  distance_to_route : ℚ
deriving DecidableEq

/-- `foldMin f x xs` is Python's `min([x] + xs, key=f)`: the accumulator is
replaced only on a strict decrease, so the first minimiser wins. -/
def foldMin {α : Type} (f : α → ℚ) (x : α) (xs : List α) : α :=
  xs.foldl (fun b a => if f a < f b then a else b) x

/-- The station chosen from a non-empty `reachable` list `r :: rs`:
the cheapest member of `far_reachable` (the stations beyond
`pos + max_range * 0.5`) when that list is non-empty, else the cheapest
member of all of `reachable`; `min` keeps the first minimiser. -/
def greedy_pick (max_range pos : ℚ) (r : RouteStation) (rs : List RouteStation) :
    RouteStation :=
  match (r :: rs).filter (fun s : RouteStation =>
      decide (pos + max_range * (1/2) < s.distance_from_start)) with
  | [] => foldMin (fun s : RouteStation => s.station.price) r rs
  | f :: fs => foldMin (fun s : RouteStation => s.station.price) f fs

/-- The number of stations strictly ahead of a position; the measure that
shrinks at every iteration of the greedy loop. -/
def num_ahead (stations : List RouteStation) (pos : ℚ) : ℕ :=
  (stations.filter (fun s : RouteStation => decide (pos < s.distance_from_start))).length

/-- One run of the `while` loop of `FuelOptimizer._greedy_fuel_stops`.
`remaining_range` is reset to `max_range` after every stop, so at each test
of the loop condition it equals `max_range`; the loop state is just
`current_position` (`pos`).  `fuel` bounds the number of iterations; the
fuel value used by `greedy_fuel_stops` is proved sufficient below. -/
def greedy_aux (max_range total : ℚ) (stations : List RouteStation) :
    ℕ → ℚ → List RouteStation
  | 0, _ => []
  | fuel + 1, pos =>
    if pos + max_range < total then
      match stations.filter (fun s : RouteStation =>
          decide (pos < s.distance_from_start ∧ s.distance_from_start ≤ pos + max_range)) with
      | [] =>
        match stations.filter (fun s : RouteStation => decide (pos < s.distance_from_start)) with
        | [] => []
        | a :: as_ =>
          (foldMin (fun s : RouteStation => s.distance_from_start) a as_) ::
            greedy_aux max_range total stations fuel
              (foldMin (fun s : RouteStation => s.distance_from_start) a as_).distance_from_start
      | r :: rs =>
        greedy_pick max_range pos r rs ::
          greedy_aux max_range total stations fuel
            (greedy_pick max_range pos r rs).distance_from_start
    else []

/-- `FuelOptimizer._greedy_fuel_stops`. -/
def greedy_fuel_stops (max_range total : ℚ) (stations : List RouteStation) :
    List RouteStation :=
  greedy_aux max_range total stations (stations.length + 1) 0

/-- `true` iff no iteration of the greedy loop enters the
empty-`reachable` branch (the unreachable-station fallback, including its
terminating sub-case).  Mirrors the recursion of `greedy_aux`. -/
def fallback_free_aux (max_range total : ℚ) (stations : List RouteStation) :
    ℕ → ℚ → Bool
  | 0, _ => true
  | fuel + 1, pos =>
    if pos + max_range < total then
      match stations.filter (fun s : RouteStation =>
          decide (pos < s.distance_from_start ∧ s.distance_from_start ≤ pos + max_range)) with
      | [] => false
      | r :: rs =>
        fallback_free_aux max_range total stations fuel
          (greedy_pick max_range pos r rs).distance_from_start
    else true

/-- Whether the whole run of `_greedy_fuel_stops` avoids the fallback branch. -/
def fallback_free (max_range total : ℚ) (stations : List RouteStation) : Bool :=
  fallback_free_aux max_range total stations (stations.length + 1) 0

/-- `FuelOptimizer._calculate_total_cost`: for each stop, the next boundary
is the next stop's distance, or `total_distance` for the last stop;
`1.2 = 6/5` is the over-fill buffer, capped at a full tank. -/
def calculate_total_cost (mpg max_range total_distance : ℚ) :
    List RouteStation → ℚ
  | [] => 0
  | [s] =>
    min ((total_distance - s.distance_from_start) / mpg * (6/5)) (max_range / mpg)
      * s.station.price
  | s :: s2 :: rest =>
    min ((s2.distance_from_start - s.distance_from_start) / mpg * (6/5)) (max_range / mpg)
      * s.station.price
      + calculate_total_cost mpg max_range total_distance (s2 :: rest)

/-- The cost formula as the specification words it: a sum over the stops
paired with their next boundaries. -/
def cost_estimate_spec (mpg max_range total_distance : ℚ)
    (stops : List RouteStation) : ℚ :=
  ((stops.zip ((stops.tail.map (fun s => s.distance_from_start)) ++ [total_distance])).map
    (fun p =>
      min ((p.2 - p.1.distance_from_start) / mpg * (6/5)) (max_range / mpg)
        * p.1.station.price)).sum

/-- Python's `round` to an integer: round half to even. -/
def pythonRound (q : ℚ) : ℤ :=
  if q - ⌊q⌋ < 1/2 then ⌊q⌋
  else if (1/2 : ℚ) < q - ⌊q⌋ then ⌊q⌋ + 1
  else if ⌊q⌋ % 2 = 0 then ⌊q⌋ else ⌊q⌋ + 1

/-- Python's `round(q, n)`. -/
def roundTo (q : ℚ) (n : ℕ) : ℚ :=
  (pythonRound (q * 10 ^ n) : ℚ) / 10 ^ n

/-- Python's `l[::n]` for `n ≥ 1`: the elements at indices divisible by `n`. -/
def everyNth {α : Type} (n : ℕ) (l : List α) : List α :=
  (l.enum.filter (fun p => p.1 % n == 0)).map Prod.snd

/-- Tail of the cumulative-distance list: `acc` is the distance accumulated
so far, `prev` the previous sampled coordinate (a `(lon, lat)` pair). -/
def cumulative_aux (dist : ℚ → ℚ → ℚ → ℚ → ℚ) :
    ℚ → ℚ × ℚ → List (ℚ × ℚ) → List ℚ
  | _, _, [] => []
  | acc, prev, c :: cs =>
    let acc2 := acc + dist prev.2 prev.1 c.2 c.1
    acc2 :: cumulative_aux dist acc2 c cs

/-- The `cumulative_distances` list of `_find_stations_near_route`
(it starts as `[0]` even for an empty sample list, as in the source). -/
def cumulative_distances (dist : ℚ → ℚ → ℚ → ℚ → ℚ)
    (sampled : List (ℚ × ℚ)) : List ℚ :=
  match sampled with
  | [] => [0]
  | c :: cs => 0 :: cumulative_aux dist 0 c cs

/-- The sampled `(lon, lat)` points paired with their cumulative distances
(`enumerate(sampled_coords)` together with `cumulative_distances[i]`). -/
def route_pairs (dist : ℚ → ℚ → ℚ → ℚ → ℚ) (geometry : List (ℚ × ℚ)) :
    List ((ℚ × ℚ) × ℚ) :=
  (everyNth (max 1 (geometry.length / 500)) geometry).zip
    (cumulative_distances dist (everyNth (max 1 (geometry.length / 500)) geometry))

/-- For one station, the list of
`(distance to the sample point, cumulative distance of the sample point)`
values scanned by the station loop. -/
def station_pts (dist : ℚ → ℚ → ℚ → ℚ → ℚ)
    (pairs : List ((ℚ × ℚ) × ℚ)) (slat slon : ℚ) : List (ℚ × ℚ) :=
  pairs.map (fun q => (dist q.1.2 q.1.1 slat slon, q.2))

/-- The per-station scan over the sampled points: returns
`(min_distance_to_route, distance_along_route)`, tracking the first sample
point attaining the minimum distance; `none` when there are no sample
points (the Python minimum stays `inf`). -/
def station_scan (dist : ℚ → ℚ → ℚ → ℚ → ℚ)
    (pairs : List ((ℚ × ℚ) × ℚ)) (slat slon : ℚ) : Option (ℚ × ℚ) :=
  match station_pts dist pairs slat slon with
  | [] => none
  | p :: ps => some (foldMin Prod.fst p ps)

/-- The body of the station loop of `_find_stations_near_route`: skip a
station missing a coordinate, otherwise keep it iff its minimum distance to
a sample point is at most the 20-mile search radius. -/
def project_station (dist : ℚ → ℚ → ℚ → ℚ → ℚ)
    (pairs : List ((ℚ × ℚ) × ℚ)) (s : Station) : Option RouteStation :=
  match s.lat, s.lon with
  | some slat, some slon =>
    match station_scan dist pairs slat slon with
    | none => none
    | some m => if m.1 ≤ 20 then some ⟨s, m.2, m.1⟩ else none
  | _, _ => none

/-- Stable insertion of a station into a list sorted by
`distance_from_start`: the new element goes before the first element whose
key is not smaller, so earlier input elements stay first on ties. -/
def insert_by_dfs (x : RouteStation) : List RouteStation → List RouteStation
  | [] => [x]
  | y :: ys =>
    if y.distance_from_start < x.distance_from_start then y :: insert_by_dfs x ys
    else x :: y :: ys

/-- Stable sort by `distance_from_start`, modelling Python's stable
`list.sort(key=...)`. -/
def sort_by_dfs (l : List RouteStation) : List RouteStation :=
  l.foldr insert_by_dfs []

/-- `FuelOptimizer._find_stations_near_route`.  `geometry` is
`geometry.get("coordinates", [])`; an absent coordinate sequence is the
empty list. -/
def find_stations_near_route (dist : ℚ → ℚ → ℚ → ℚ → ℚ)
    (geometry : List (ℚ × ℚ)) (stations : List Station) : List RouteStation :=
  sort_by_dfs (stations.filterMap (project_station dist (route_pairs dist geometry)))

/-- The result dictionary of `find_optimal_fuel_stops`; keys absent from a
branch's dictionary are modelled by `none` (and the absent `error` key by
`false`). -/
structure TripResult where
  optimal_stops : List RouteStation
  total_gallons : ℚ
  total_fuel_cost : ℚ
  message : Option String
  error : Bool
  fuel_stops_count : Option ℕ
  average_price_per_gallon : Option ℚ
deriving DecidableEq

/-- `FuelOptimizer.find_optimal_fuel_stops`. -/
def find_optimal_fuel_stops (dist : ℚ → ℚ → ℚ → ℚ → ℚ)
    (max_range mpg : ℚ) (geometry : List (ℚ × ℚ))
    (total_distance_miles : ℚ) (fuel_stations : List Station) : TripResult :=
  if total_distance_miles ≤ max_range then
    { optimal_stops := []
      total_gallons := total_distance_miles / mpg
      total_fuel_cost := 0
      message := some "Route is within vehicle range. No fuel stop needed."
      error := false
      fuel_stops_count := none
      average_price_per_gallon := none }
  else
    let route_stations := find_stations_near_route dist geometry fuel_stations
    match route_stations with
    | [] =>
      { optimal_stops := []
        total_gallons := total_distance_miles / mpg
        total_fuel_cost := 0
        message := some "No fuel stations found near route. Please plan manually."
        error := true
        fuel_stops_count := none
        average_price_per_gallon := none }
    | r :: rs =>
      let optimal_stops := greedy_fuel_stops max_range total_distance_miles (r :: rs)
      let total_gallons := total_distance_miles / mpg
      let total_cost := calculate_total_cost mpg max_range total_distance_miles optimal_stops
      { optimal_stops := optimal_stops
        total_gallons := roundTo total_gallons 2
        total_fuel_cost := roundTo total_cost 2
        message := none
        error := false
        fuel_stops_count := some optimal_stops.length
        average_price_per_gallon :=
          some (if 0 < total_gallons then roundTo (total_cost / total_gallons) 3 else 0) }

theorem foldMin_cons {α : Type} (f : α → ℚ) (x a : α) (xs : List α) :
    foldMin f x (a :: xs) = foldMin f (if f a < f x then a else x) xs := rfl

theorem foldMin_mem {α : Type} (f : α → ℚ) (x : α) (xs : List α) :
    foldMin f x xs ∈ x :: xs := by
  induction xs generalizing x with
  | nil => simp [foldMin]
  | cons a as ih =>
    rw [foldMin_cons]
    rcases List.mem_cons.mp (ih (if f a < f x then a else x)) with h1 | h2
    · rw [h1]
      split
      · exact List.mem_cons_of_mem _ (List.mem_cons_self _ _)
      · exact List.mem_cons_self _ _
    · exact List.mem_cons_of_mem _ (List.mem_cons_of_mem _ h2)

theorem foldMin_le {α : Type} (f : α → ℚ) (x : α) (xs : List α) :
    ∀ y ∈ x :: xs, f (foldMin f x xs) ≤ f y := by
  induction xs generalizing x with
  | nil =>
    intro y hy
    rcases List.mem_cons.mp hy with h | h
    · rw [h]; simp [foldMin]
    · simp at h
  | cons a as ih =>
    intro y hy
    rw [foldMin_cons]
    by_cases hax : f a < f x
    · rw [if_pos hax]
      have hhead : f (foldMin f a as) ≤ f a := ih a a (List.mem_cons_self _ _)
      rcases List.mem_cons.mp hy with h | h
      · rw [h]; exact le_trans hhead (le_of_lt hax)
      · rcases List.mem_cons.mp h with h2 | h2
        · rw [h2]; exact hhead
        · exact ih a y (List.mem_cons_of_mem _ h2)
    · rw [if_neg hax]
      have hhead : f (foldMin f x as) ≤ f x := ih x x (List.mem_cons_self _ _)
      rcases List.mem_cons.mp hy with h | h
      · rw [h]; exact hhead
      · rcases List.mem_cons.mp h with h2 | h2
        · rw [h2]; exact le_trans hhead (not_lt.mp hax)
        · exact ih x y (List.mem_cons_of_mem _ h2)

theorem foldMin_first {α : Type} (f : α → ℚ) (x : α) (xs : List α) :
    ∃ u v, x :: xs = u ++ foldMin f x xs :: v ∧
      ∀ t ∈ u, f (foldMin f x xs) < f t := by
  induction xs generalizing x with
  | nil => exact ⟨[], [], by simp [foldMin], by simp⟩
  | cons a as ih =>
    rw [foldMin_cons]
    by_cases hax : f a < f x
    · rw [if_pos hax]
      obtain ⟨u, v, hsplit, hmin⟩ := ih a
      refine ⟨x :: u, v, ?_, ?_⟩
      · rw [List.cons_append, ← hsplit]
      · intro t ht
        rcases List.mem_cons.mp ht with h | h
        · rw [h]
          exact lt_of_le_of_lt (foldMin_le f a as a (List.mem_cons_self _ _)) hax
        · exact hmin t h
    · rw [if_neg hax]
      obtain ⟨u, v, hsplit, hmin⟩ := ih x
      cases u with
      | nil =>
        simp only [List.nil_append] at hsplit
        have hx : x = foldMin f x as := (List.cons.injEq _ _ _ _).mp hsplit |>.1
        exact ⟨[], a :: as, by rw [List.nil_append, ← hx], by simp⟩
      | cons w u2 =>
        simp only [List.cons_append] at hsplit
        have hw : x = w := (List.cons.injEq _ _ _ _).mp hsplit |>.1
        have has : as = u2 ++ foldMin f x as :: v := (List.cons.injEq _ _ _ _).mp hsplit |>.2
        rw [← hw] at hmin
        refine ⟨x :: a :: u2, v, ?_, ?_⟩
        · rw [List.cons_append, List.cons_append, ← has]
        · intro t ht
          rcases List.mem_cons.mp ht with h | h
          · rw [h]
            exact hmin x (List.mem_cons_self _ _)
          · rcases List.mem_cons.mp h with h2 | h2
            · rw [h2]
              exact lt_of_lt_of_le (hmin x (List.mem_cons_self _ _)) (not_lt.mp hax)
            · exact hmin t (List.mem_cons_of_mem _ h2)

theorem length_filter_le_of {α : Type} (p q : α → Bool) (l : List α)
    (h : ∀ x ∈ l, p x = true → q x = true) :
    (l.filter p).length ≤ (l.filter q).length := by
  induction l with
  | nil => simp
  | cons a as ih =>
    have ih2 := ih (fun x hx => h x (List.mem_cons_of_mem _ hx))
    rw [List.filter_cons, List.filter_cons]
    by_cases hpa : p a = true
    · rw [if_pos hpa, if_pos (h a (List.mem_cons_self _ _) hpa)]
      simpa using ih2
    · rw [if_neg hpa]
      split
      · exact le_trans ih2 (by simp)
      · exact ih2

theorem length_filter_lt {α : Type} (p q : α → Bool) (l : List α)
    (h : ∀ x ∈ l, p x = true → q x = true) (x : α) (hx : x ∈ l)
    (hqx : q x = true) (hpx : p x = false) :
    (l.filter p).length < (l.filter q).length := by
  induction l with
  | nil => simp at hx
  | cons a as ih =>
    have hle : (as.filter p).length ≤ (as.filter q).length :=
      length_filter_le_of p q as (fun t ht => h t (List.mem_cons_of_mem _ ht))
    rcases List.mem_cons.mp hx with rfl | hmem
    · rw [List.filter_cons, List.filter_cons, if_pos hqx, if_neg (by rw [hpx]; simp)]
      simpa using Nat.lt_succ_of_le hle
    · have hlt := ih (fun t ht hp => h t (List.mem_cons_of_mem _ ht) hp) hmem
      rw [List.filter_cons, List.filter_cons]
      by_cases hpa : p a = true
      · rw [if_pos hpa, if_pos (h a (List.mem_cons_self _ _) hpa)]
        simpa using hlt
      · rw [if_neg hpa]
        split
        · exact lt_of_lt_of_le hlt (by simp)
        · exact hlt

theorem insert_by_dfs_perm (x : RouteStation) (l : List RouteStation) :
    (insert_by_dfs x l).Perm (x :: l) := by
  induction l with
  | nil => exact List.Perm.refl _
  | cons y ys ih =>
    rw [insert_by_dfs]
    split
    · exact List.Perm.trans (List.Perm.cons y ih) (List.Perm.swap x y ys)
    · exact List.Perm.refl _

theorem sort_by_dfs_perm (l : List RouteStation) : (sort_by_dfs l).Perm l := by
  induction l with
  | nil => exact List.Perm.refl _
  | cons a t ih =>
    have : sort_by_dfs (a :: t) = insert_by_dfs a (sort_by_dfs t) := rfl
    rw [this]
    exact List.Perm.trans (insert_by_dfs_perm a (sort_by_dfs t)) (List.Perm.cons a ih)

theorem insert_by_dfs_pairwise (x : RouteStation) (l : List RouteStation)
    (h : l.Pairwise (fun a b => a.distance_from_start ≤ b.distance_from_start)) :
    (insert_by_dfs x l).Pairwise (fun a b => a.distance_from_start ≤ b.distance_from_start) := by
  induction l with
  | nil => simp [insert_by_dfs]
  | cons y ys ih =>
    obtain ⟨hy, hys⟩ := List.pairwise_cons.mp h
    rw [insert_by_dfs]
    by_cases hyx : y.distance_from_start < x.distance_from_start
    · rw [if_pos hyx]
      refine List.pairwise_cons.mpr ⟨?_, ih hys⟩
      intro z hz
      rcases List.mem_cons.mp ((insert_by_dfs_perm x ys).mem_iff.mp hz) with h2 | h2
      · rw [h2]; exact le_of_lt hyx
      · exact hy z h2
    · rw [if_neg hyx]
      refine List.pairwise_cons.mpr ⟨?_, h⟩
      intro z hz
      rcases List.mem_cons.mp hz with h2 | h2
      · rw [h2]; exact not_lt.mp hyx
      · exact le_trans (not_lt.mp hyx) (hy z h2)

theorem sort_by_dfs_pairwise (l : List RouteStation) :
    (sort_by_dfs l).Pairwise (fun a b => a.distance_from_start ≤ b.distance_from_start) := by
  induction l with
  | nil => simp [sort_by_dfs]
  | cons a t ih => exact insert_by_dfs_pairwise a (sort_by_dfs t) ih

theorem insert_by_dfs_filter (x : RouteStation) (l : List RouteStation) (d : ℚ) :
    (insert_by_dfs x l).filter (fun s : RouteStation => decide (s.distance_from_start = d)) =
      if x.distance_from_start = d then
        x :: l.filter (fun s : RouteStation => decide (s.distance_from_start = d))
      else l.filter (fun s : RouteStation => decide (s.distance_from_start = d)) := by
  induction l with
  | nil =>
    rw [insert_by_dfs]
    by_cases hx : x.distance_from_start = d
    · rw [if_pos hx]; simp [hx]
    · rw [if_neg hx]; simp [hx]
  | cons y ys ih =>
    rw [insert_by_dfs]
    by_cases hyx : y.distance_from_start < x.distance_from_start
    · rw [if_pos hyx, List.filter_cons, ih]
      by_cases hx : x.distance_from_start = d
      · have hy : ¬ y.distance_from_start = d := by
          rw [← hx]; exact ne_of_lt hyx
        rw [if_pos hx, if_pos hx, List.filter_cons, if_neg (by simp [hy]), if_neg (by simp [hy])]
      · rw [if_neg hx, if_neg hx, List.filter_cons]
    · rw [if_neg hyx, List.filter_cons]
      by_cases hx : x.distance_from_start = d
      · rw [if_pos hx, if_pos (by simp [hx])]
      · rw [if_neg hx, if_neg (by simp [hx])]

theorem sort_by_dfs_filter (l : List RouteStation) (d : ℚ) :
    (sort_by_dfs l).filter (fun s : RouteStation => decide (s.distance_from_start = d)) =
      l.filter (fun s : RouteStation => decide (s.distance_from_start = d)) := by
  induction l with
  | nil => rfl
  | cons a t ih =>
    have hstep : sort_by_dfs (a :: t) = insert_by_dfs a (sort_by_dfs t) := rfl
    rw [hstep, insert_by_dfs_filter, List.filter_cons]
    by_cases ha : a.distance_from_start = d
    · rw [if_pos ha, if_pos (by simp [ha]), ih]
    · rw [if_neg ha, if_neg (by simp [ha]), ih]

theorem cumulative_aux_length (dist : ℚ → ℚ → ℚ → ℚ → ℚ) (cs : List (ℚ × ℚ)) :
    ∀ (acc : ℚ) (prev : ℚ × ℚ), (cumulative_aux dist acc prev cs).length = cs.length := by
  induction cs with
  | nil => intro acc prev; rfl
  | cons c cs2 ih =>
    intro acc prev
    rw [cumulative_aux]
    simp [ih]

theorem zip_cumulative_fst (dist : ℚ → ℚ → ℚ → ℚ → ℚ) (sampled : List (ℚ × ℚ)) :
    (sampled.zip (cumulative_distances dist sampled)).map Prod.fst = sampled := by
  cases sampled with
  | nil => rfl
  | cons c cs =>
    apply List.map_fst_zip
    rw [cumulative_distances]
    simp [cumulative_aux_length]

theorem greedy_pick_mem (mr pos : ℚ) (r : RouteStation) (rs : List RouteStation) :
    greedy_pick mr pos r rs ∈ r :: rs := by
  rw [greedy_pick]
  split
  · exact foldMin_mem _ r rs
  · next f fs hfar =>
    have h1 : foldMin (fun s : RouteStation => s.station.price) f fs ∈ f :: fs :=
      foldMin_mem _ f fs
    rw [← hfar] at h1
    exact List.mem_of_mem_filter h1

theorem greedy_pick_reachable (mr pos : ℚ) (stations : List RouteStation)
    (r : RouteStation) (rs : List RouteStation)
    (hre : stations.filter (fun s : RouteStation =>
        decide (pos < s.distance_from_start ∧ s.distance_from_start ≤ pos + mr)) = r :: rs) :
    greedy_pick mr pos r rs ∈ stations ∧
      pos < (greedy_pick mr pos r rs).distance_from_start ∧
      (greedy_pick mr pos r rs).distance_from_start ≤ pos + mr := by
  have h1 : greedy_pick mr pos r rs ∈ r :: rs := greedy_pick_mem mr pos r rs
  rw [← hre] at h1
  obtain ⟨h2, h3⟩ := List.mem_filter.mp h1
  have h4 := of_decide_eq_true h3
  exact ⟨h2, h4.1, h4.2⟩

theorem ahead_foldMin_mem (stations : List RouteStation) (pos : ℚ)
    (a : RouteStation) (as_ : List RouteStation)
    (hah : stations.filter (fun s : RouteStation =>
        decide (pos < s.distance_from_start)) = a :: as_) :
    foldMin (fun s : RouteStation => s.distance_from_start) a as_ ∈ stations ∧
      pos < (foldMin (fun s : RouteStation => s.distance_from_start) a as_).distance_from_start := by
  have h1 := foldMin_mem (fun s : RouteStation => s.distance_from_start) a as_
  rw [← hah] at h1
  obtain ⟨h2, h3⟩ := List.mem_filter.mp h1
  exact ⟨h2, of_decide_eq_true h3⟩

theorem num_ahead_lt_of (stations : List RouteStation) {pos : ℚ} {b : RouteStation}
    (hb : b ∈ stations) (hpos : pos < b.distance_from_start) :
    num_ahead stations b.distance_from_start < num_ahead stations pos := by
  refine length_filter_lt _ _ stations ?_ b hb ?_ ?_
  · intro x _ hp
    have := of_decide_eq_true hp
    exact decide_eq_true (lt_trans hpos this)
  · exact decide_eq_true hpos
  · simp

theorem greedy_aux_zero (mr total : ℚ) (stations : List RouteStation) (pos : ℚ) :
    greedy_aux mr total stations 0 pos = [] := rfl

theorem greedy_aux_succ_stop (mr total : ℚ) (stations : List RouteStation)
    (fuel : ℕ) (pos : ℚ) (h : ¬ pos + mr < total) :
    greedy_aux mr total stations (fuel + 1) pos = [] := by
  simp only [greedy_aux, if_neg h]

theorem greedy_aux_succ_reach (mr total : ℚ) (stations : List RouteStation)
    (fuel : ℕ) (pos : ℚ) (r : RouteStation) (rs : List RouteStation)
    (hc : pos + mr < total)
    (hre : stations.filter (fun s : RouteStation =>
        decide (pos < s.distance_from_start ∧ s.distance_from_start ≤ pos + mr)) = r :: rs) :
    greedy_aux mr total stations (fuel + 1) pos =
      greedy_pick mr pos r rs ::
        greedy_aux mr total stations fuel (greedy_pick mr pos r rs).distance_from_start := by
  simp only [greedy_aux, if_pos hc, hre]

theorem greedy_aux_succ_fallback_cons (mr total : ℚ) (stations : List RouteStation)
    (fuel : ℕ) (pos : ℚ) (a : RouteStation) (as_ : List RouteStation)
    (hc : pos + mr < total)
    (hre : stations.filter (fun s : RouteStation =>
        decide (pos < s.distance_from_start ∧ s.distance_from_start ≤ pos + mr)) = [])
    (hah : stations.filter (fun s : RouteStation =>
        decide (pos < s.distance_from_start)) = a :: as_) :
    greedy_aux mr total stations (fuel + 1) pos =
      foldMin (fun s : RouteStation => s.distance_from_start) a as_ ::
        greedy_aux mr total stations fuel
          (foldMin (fun s : RouteStation => s.distance_from_start) a as_).distance_from_start := by
  simp only [greedy_aux, if_pos hc, hre, hah]

theorem greedy_aux_succ_fallback_nil (mr total : ℚ) (stations : List RouteStation)
    (fuel : ℕ) (pos : ℚ)
    (hc : pos + mr < total)
    (hre : stations.filter (fun s : RouteStation =>
        decide (pos < s.distance_from_start ∧ s.distance_from_start ≤ pos + mr)) = [])
    (hah : stations.filter (fun s : RouteStation =>
        decide (pos < s.distance_from_start)) = []) :
    greedy_aux mr total stations (fuel + 1) pos = [] := by
  simp only [greedy_aux, if_pos hc, hre, hah]

theorem fallback_free_aux_succ_stop (mr total : ℚ) (stations : List RouteStation)
    (fuel : ℕ) (pos : ℚ) (h : ¬ pos + mr < total) :
    fallback_free_aux mr total stations (fuel + 1) pos = true := by
  simp only [fallback_free_aux, if_neg h]

theorem fallback_free_aux_succ_empty (mr total : ℚ) (stations : List RouteStation)
    (fuel : ℕ) (pos : ℚ)
    (hc : pos + mr < total)
    (hre : stations.filter (fun s : RouteStation =>
        decide (pos < s.distance_from_start ∧ s.distance_from_start ≤ pos + mr)) = []) :
    fallback_free_aux mr total stations (fuel + 1) pos = false := by
  simp only [fallback_free_aux, if_pos hc, hre]

theorem fallback_free_aux_succ_reach (mr total : ℚ) (stations : List RouteStation)
    (fuel : ℕ) (pos : ℚ) (r : RouteStation) (rs : List RouteStation)
    (hc : pos + mr < total)
    (hre : stations.filter (fun s : RouteStation =>
        decide (pos < s.distance_from_start ∧ s.distance_from_start ≤ pos + mr)) = r :: rs) :
    fallback_free_aux mr total stations (fuel + 1) pos =
      fallback_free_aux mr total stations fuel
        (greedy_pick mr pos r rs).distance_from_start := by
  simp only [fallback_free_aux, if_pos hc, hre]

theorem greedy_aux_pos_lt (mr total : ℚ) (stations : List RouteStation) :
    ∀ (fuel : ℕ) (pos : ℚ) (s : RouteStation),
      s ∈ greedy_aux mr total stations fuel pos → pos < s.distance_from_start := by
  intro fuel
  induction fuel with
  | zero => intro pos s hs; rw [greedy_aux_zero] at hs; simp at hs
  | succ fuel ih =>
    intro pos s hs
    by_cases hc : pos + mr < total
    · rcases hre : stations.filter (fun s : RouteStation =>
          decide (pos < s.distance_from_start ∧ s.distance_from_start ≤ pos + mr)) with _ | ⟨r, rs⟩
      · rcases hah : stations.filter (fun s : RouteStation =>
            decide (pos < s.distance_from_start)) with _ | ⟨a, as_⟩
        · rw [greedy_aux_succ_fallback_nil mr total stations fuel pos hc hre hah] at hs
          simp at hs
        · rw [greedy_aux_succ_fallback_cons mr total stations fuel pos a as_ hc hre hah] at hs
          obtain ⟨_, hgt⟩ := ahead_foldMin_mem stations pos a as_ hah
          rcases List.mem_cons.mp hs with h | h
          · rw [h]; exact hgt
          · exact lt_trans hgt (ih _ s h)
      · rw [greedy_aux_succ_reach mr total stations fuel pos r rs hc hre] at hs
        obtain ⟨_, hgt, _⟩ := greedy_pick_reachable mr pos stations r rs hre
        rcases List.mem_cons.mp hs with h | h
        · rw [h]; exact hgt
        · exact lt_trans hgt (ih _ s h)
    · rw [greedy_aux_succ_stop mr total stations fuel pos hc] at hs
      simp at hs

theorem greedy_aux_chain (mr total : ℚ) (stations : List RouteStation) :
    ∀ (fuel : ℕ) (pos : ℚ),
      List.Chain' (fun a b => a.distance_from_start < b.distance_from_start)
        (greedy_aux mr total stations fuel pos) := by
  intro fuel
  induction fuel with
  | zero => intro pos; rw [greedy_aux_zero]; exact List.chain'_nil
  | succ fuel ih =>
    intro pos
    by_cases hc : pos + mr < total
    · rcases hre : stations.filter (fun s : RouteStation =>
          decide (pos < s.distance_from_start ∧ s.distance_from_start ≤ pos + mr)) with _ | ⟨r, rs⟩
      · rcases hah : stations.filter (fun s : RouteStation =>
            decide (pos < s.distance_from_start)) with _ | ⟨a, as_⟩
        · rw [greedy_aux_succ_fallback_nil mr total stations fuel pos hc hre hah]
          exact List.chain'_nil
        · rw [greedy_aux_succ_fallback_cons mr total stations fuel pos a as_ hc hre hah]
          refine List.chain'_cons'.mpr ⟨?_, ih _⟩
          intro y hy
          exact greedy_aux_pos_lt mr total stations fuel _ y (List.mem_of_mem_head? hy)
      · rw [greedy_aux_succ_reach mr total stations fuel pos r rs hc hre]
        refine List.chain'_cons'.mpr ⟨?_, ih _⟩
        intro y hy
        exact greedy_aux_pos_lt mr total stations fuel _ y (List.mem_of_mem_head? hy)
    · rw [greedy_aux_succ_stop mr total stations fuel pos hc]
      exact List.chain'_nil

theorem greedy_aux_length_le (mr total : ℚ) (stations : List RouteStation) :
    ∀ (fuel : ℕ) (pos : ℚ),
      (greedy_aux mr total stations fuel pos).length ≤ num_ahead stations pos := by
  intro fuel
  induction fuel with
  | zero => intro pos; rw [greedy_aux_zero]; simp
  | succ fuel ih =>
    intro pos
    by_cases hc : pos + mr < total
    · rcases hre : stations.filter (fun s : RouteStation =>
          decide (pos < s.distance_from_start ∧ s.distance_from_start ≤ pos + mr)) with _ | ⟨r, rs⟩
      · rcases hah : stations.filter (fun s : RouteStation =>
            decide (pos < s.distance_from_start)) with _ | ⟨a, as_⟩
        · rw [greedy_aux_succ_fallback_nil mr total stations fuel pos hc hre hah]; simp
        · rw [greedy_aux_succ_fallback_cons mr total stations fuel pos a as_ hc hre hah]
          obtain ⟨hmem, hgt⟩ := ahead_foldMin_mem stations pos a as_ hah
          have hdec := num_ahead_lt_of stations hmem hgt
          have hrec := ih (foldMin (fun s : RouteStation => s.distance_from_start) a as_).distance_from_start
          simp only [List.length_cons]
          omega
      · rw [greedy_aux_succ_reach mr total stations fuel pos r rs hc hre]
        obtain ⟨hmem, hgt, _⟩ := greedy_pick_reachable mr pos stations r rs hre
        have hdec := num_ahead_lt_of stations hmem hgt
        have hrec := ih (greedy_pick mr pos r rs).distance_from_start
        simp only [List.length_cons]
        omega
    · rw [greedy_aux_succ_stop mr total stations fuel pos hc]; simp

theorem greedy_aux_fuel_eq (mr total : ℚ) (stations : List RouteStation) :
    ∀ (f1 f2 : ℕ) (pos : ℚ), num_ahead stations pos < f1 → num_ahead stations pos < f2 →
      greedy_aux mr total stations f1 pos = greedy_aux mr total stations f2 pos := by
  intro f1
  induction f1 with
  | zero => intro f2 pos h1 _; exact absurd h1 (Nat.not_lt_zero _)
  | succ n ih =>
    intro f2 pos h1 h2
    cases f2 with
    | zero => exact absurd h2 (Nat.not_lt_zero _)
    | succ m =>
      by_cases hc : pos + mr < total
      · rcases hre : stations.filter (fun s : RouteStation =>
            decide (pos < s.distance_from_start ∧ s.distance_from_start ≤ pos + mr)) with _ | ⟨r, rs⟩
        · rcases hah : stations.filter (fun s : RouteStation =>
              decide (pos < s.distance_from_start)) with _ | ⟨a, as_⟩
          · rw [greedy_aux_succ_fallback_nil mr total stations n pos hc hre hah,
              greedy_aux_succ_fallback_nil mr total stations m pos hc hre hah]
          · rw [greedy_aux_succ_fallback_cons mr total stations n pos a as_ hc hre hah,
              greedy_aux_succ_fallback_cons mr total stations m pos a as_ hc hre hah]
            obtain ⟨hmem, hgt⟩ := ahead_foldMin_mem stations pos a as_ hah
            have hdec := num_ahead_lt_of stations hmem hgt
            rw [ih m _ (by omega) (by omega)]
        · rw [greedy_aux_succ_reach mr total stations n pos r rs hc hre,
            greedy_aux_succ_reach mr total stations m pos r rs hc hre]
          obtain ⟨hmem, hgt, _⟩ := greedy_pick_reachable mr pos stations r rs hre
          have hdec := num_ahead_lt_of stations hmem hgt
          rw [ih m _ (by omega) (by omega)]
      · rw [greedy_aux_succ_stop mr total stations n pos hc,
          greedy_aux_succ_stop mr total stations m pos hc]

theorem greedy_aux_gaps (mr total : ℚ) (stations : List RouteStation) :
    ∀ (fuel : ℕ) (pos : ℚ), num_ahead stations pos < fuel →
      fallback_free_aux mr total stations fuel pos = true →
      List.Chain' (fun a b => b - a ≤ mr)
        (pos :: ((greedy_aux mr total stations fuel pos).map
          (fun s => s.distance_from_start) ++ [total])) := by
  intro fuel
  induction fuel with
  | zero => intro pos h1 _; exact absurd h1 (Nat.not_lt_zero _)
  | succ n ih =>
    intro pos hfu hff
    by_cases hc : pos + mr < total
    · rcases hre : stations.filter (fun s : RouteStation =>
          decide (pos < s.distance_from_start ∧ s.distance_from_start ≤ pos + mr)) with _ | ⟨r, rs⟩
      · rw [fallback_free_aux_succ_empty mr total stations n pos hc hre] at hff
        simp at hff
      · rw [greedy_aux_succ_reach mr total stations n pos r rs hc hre]
        obtain ⟨hmem, hgt, hle⟩ := greedy_pick_reachable mr pos stations r rs hre
        rw [fallback_free_aux_succ_reach mr total stations n pos r rs hc hre] at hff
        have hdec := num_ahead_lt_of stations hmem hgt
        have ih2 := ih (greedy_pick mr pos r rs).distance_from_start (by omega) hff
        simp only [List.map_cons, List.cons_append]
        exact List.chain'_cons.mpr ⟨by linarith, ih2⟩
    · rw [greedy_aux_succ_stop mr total stations n pos hc]
      simp only [List.map_nil, List.nil_append]
      exact List.chain'_cons.mpr ⟨by linarith [not_lt.mp hc], List.chain'_singleton total⟩

theorem first_min_dfs {l u v : List RouteStation} {b : RouteStation}
    (hsort : l.Pairwise (fun a c => a.distance_from_start ≤ c.distance_from_start))
    (hsplit : l = u ++ b :: v)
    (hmin : ∀ t ∈ u, b.station.price < t.station.price) :
    ∀ t ∈ l, t.station.price = b.station.price →
      b.distance_from_start ≤ t.distance_from_start := by
  subst hsplit
  intro t ht heq
  rcases List.mem_append.mp ht with hu | hbv
  · exact absurd heq (ne_of_gt (hmin t hu))
  · rcases List.mem_cons.mp hbv with h | h
    · rw [h]
    · have h2 := (List.pairwise_append.mp hsort).2.1
      exact (List.pairwise_cons.mp h2).1 t h

theorem calculate_total_cost_eq_spec (mpg max_range total : ℚ) :
    ∀ stops : List RouteStation,
      calculate_total_cost mpg max_range total stops =
        cost_estimate_spec mpg max_range total stops := by
  intro stops
  induction stops with
  | nil => rfl
  | cons s tail ih =>
    cases tail with
    | nil => simp [calculate_total_cost, cost_estimate_spec]
    | cons s2 rest =>
      have hspec : cost_estimate_spec mpg max_range total (s :: s2 :: rest) =
          min ((s2.distance_from_start - s.distance_from_start) / mpg * (6/5))
              (max_range / mpg) * s.station.price
            + cost_estimate_spec mpg max_range total (s2 :: rest) := by
        simp [cost_estimate_spec]
      rw [calculate_total_cost, hspec, ih]

theorem project_station_no_pairs (dist : ℚ → ℚ → ℚ → ℚ → ℚ) (s : Station) :
    project_station dist [] s = none := by
  cases hl : s.lat with
  | none => simp [project_station, hl]
  | some slat =>
    cases ho : s.lon with
    | none => simp [project_station, hl, ho]
    | some slon => simp [project_station, hl, ho, station_scan, station_pts]

theorem find_stations_near_route_empty_geometry (dist : ℚ → ℚ → ℚ → ℚ → ℚ)
    (stations : List Station) :
    find_stations_near_route dist [] stations = [] := by
  have hpairs : route_pairs dist [] = [] := rfl
  rw [find_stations_near_route, hpairs]
  have hfm : stations.filterMap (project_station dist []) = [] :=
    List.filterMap_eq_nil_iff.mpr (fun s _ => project_station_no_pairs dist s)
  rw [hfm]
  rfl

/-- C1 (confirmed): in every run of the stop selector in which no iteration
enters the unreachable-station fallback branch (`fallback_free`), every
inter-stop gap — including the gap from the origin at position `0` to the
first stop and the gap from the last stop to `total` — is at most
`max_range`. -/
theorem claim_c1_gaps_bounded (max_range total : ℚ) (stations : List RouteStation)
    (h : fallback_free max_range total stations = true) :
    List.Chain' (fun a b => b - a ≤ max_range)
      (0 :: ((greedy_fuel_stops max_range total stations).map
        (fun s => s.distance_from_start) ++ [total])) := by
  have hb : num_ahead stations 0 < stations.length + 1 :=
    Nat.lt_succ_of_le (List.length_filter_le _ _)
  exact greedy_aux_gaps max_range total stations (stations.length + 1) 0 hb h

theorem claim_c1_witness :
    fallback_free 500 600
        [⟨⟨"a", 3, some 0, some 0⟩, 300, 0⟩, ⟨⟨"b", 14/5, some 0, some 0⟩, 450, 0⟩] = true ∧
      List.Chain' (fun a b => b - a ≤ 500)
        (0 :: ((greedy_fuel_stops 500 600
          [⟨⟨"a", 3, some 0, some 0⟩, 300, 0⟩, ⟨⟨"b", 14/5, some 0, some 0⟩, 450, 0⟩]).map
            (fun s => s.distance_from_start) ++ [600])) :=
  ⟨by with_unfolding_all decide, claim_c1_gaps_bounded 500 600
    [⟨⟨"a", 3, some 0, some 0⟩, 300, 0⟩, ⟨⟨"b", 14/5, some 0, some 0⟩, 450, 0⟩]
    (by with_unfolding_all decide)⟩

/-- C2 (confirmed): for every station list, total distance and range, the
stop sequence returned by the greedy selector is strictly increasing in
`distance_from_start`; the fallback branch is covered as well, since the
statement has no side condition. -/
theorem claim_c2_strictly_increasing (max_range total : ℚ)
    (stations : List RouteStation) :
    List.Chain' (fun a b => a.distance_from_start < b.distance_from_start)
      (greedy_fuel_stops max_range total stations) :=
  greedy_aux_chain max_range total stations (stations.length + 1) 0

/-- C3 (confirmed): when `total ≤ max_range`, `find_optimal_fuel_stops`
returns no stops, `total / mpg` gallons and zero cost, and the result does
not depend on the distance function, the geometry or the station list. -/
theorem claim_c3_within_range (dist : ℚ → ℚ → ℚ → ℚ → ℚ) (max_range mpg : ℚ)
    (geometry : List (ℚ × ℚ)) (total : ℚ) (stations : List Station)
    (h : total ≤ max_range) :
    (find_optimal_fuel_stops dist max_range mpg geometry total stations).optimal_stops = [] ∧
    (find_optimal_fuel_stops dist max_range mpg geometry total stations).total_gallons =
      total / mpg ∧
    (find_optimal_fuel_stops dist max_range mpg geometry total stations).total_fuel_cost = 0 ∧
    ∀ (dist2 : ℚ → ℚ → ℚ → ℚ → ℚ) (geometry2 : List (ℚ × ℚ)) (stations2 : List Station),
      find_optimal_fuel_stops dist max_range mpg geometry total stations =
        find_optimal_fuel_stops dist2 max_range mpg geometry2 total stations2 := by
  simp [find_optimal_fuel_stops, if_pos h]

theorem claim_c3_witness :
    (400 : ℚ) ≤ 500 ∧
      (find_optimal_fuel_stops (fun _ _ _ _ => 0) 500 10 [] 400 []).total_gallons = 400 / 10 :=
  ⟨by with_unfolding_all decide,
    (claim_c3_within_range (fun _ _ _ _ => 0) 500 10 [] 400 []
      (by with_unfolding_all decide)).2.1⟩

/-- C7 (confirmed): the cost estimator returns `0` on an empty stop list
and otherwise the sum, over the stops paired with their next boundaries
(the next stop's distance, or the total distance for the last stop), of
`min(segment / mpg * 1.2, max_range / mpg) * price`. -/
theorem claim_c7_cost_formula (mpg max_range total : ℚ) (stops : List RouteStation) :
    calculate_total_cost mpg max_range total stops =
      cost_estimate_spec mpg max_range total stops ∧
    calculate_total_cost mpg max_range total [] = 0 :=
  ⟨calculate_total_cost_eq_spec mpg max_range total stops, rfl⟩

/-- C10 (confirmed): the greedy loop terminates — its result is already
stable at the fuel bound `stations.length + 1`, so every larger iteration
bound gives the same stop list — and the stop list never has more stops
than there are stations. -/
theorem claim_c10_terminates (max_range total : ℚ) (stations : List RouteStation) :
    (∀ fuel : ℕ, stations.length + 1 ≤ fuel →
      greedy_aux max_range total stations fuel 0 =
        greedy_fuel_stops max_range total stations) ∧
    (greedy_fuel_stops max_range total stations).length ≤ stations.length := by
  have hb : num_ahead stations 0 ≤ stations.length := List.length_filter_le _ _
  constructor
  · intro fuel hf
    exact greedy_aux_fuel_eq max_range total stations fuel (stations.length + 1) 0
      (by omega) (by omega)
  · exact le_trans (greedy_aux_length_le max_range total stations (stations.length + 1) 0) hb

theorem claim_c10_witness :
    ((1 : ℕ) + 1 ≤ 5 ∧
      greedy_aux 500 600 [⟨⟨"a", 3, some 0, some 0⟩, 300, 0⟩] 5 0 =
        greedy_fuel_stops 500 600 [⟨⟨"a", 3, some 0, some 0⟩, 300, 0⟩]) ∧
      (greedy_fuel_stops 500 600 [⟨⟨"a", 3, some 0, some 0⟩, 300, 0⟩]).length ≤ 1 :=
  ⟨⟨by decide,
      (claim_c10_terminates 500 600 [⟨⟨"a", 3, some 0, some 0⟩, 300, 0⟩]).1 5 (by decide)⟩,
    (claim_c10_terminates 500 600 [⟨⟨"a", 3, some 0, some 0⟩, 300, 0⟩]).2⟩

/-- C4 (confirmed): in every iteration with a non-empty reachable set the
loop appends one station and continues from it with a full tank; the
appended station is the minimum-price member of `far_reachable` when that
list is non-empty and of the whole reachable set otherwise, price ties
being resolved to the earliest list entry, which under the sortedness of
the input is the station of smallest `distance_from_start`. -/
theorem claim_c4_pick_cheapest (max_range total : ℚ) (stations : List RouteStation)
    (fuel : ℕ) (pos : ℚ) (r : RouteStation) (rs : List RouteStation)
    (hc : pos + max_range < total)
    (hre : stations.filter (fun s : RouteStation =>
        decide (pos < s.distance_from_start ∧ s.distance_from_start ≤ pos + max_range)) = r :: rs)
    (hsorted : stations.Pairwise
      (fun a b => a.distance_from_start ≤ b.distance_from_start)) :
    ∃ best : RouteStation,
      greedy_aux max_range total stations (fuel + 1) pos =
        best :: greedy_aux max_range total stations fuel best.distance_from_start ∧
      ((r :: rs).filter (fun s : RouteStation =>
          decide (pos + max_range * (1/2) < s.distance_from_start)) ≠ [] →
        best ∈ (r :: rs).filter (fun s : RouteStation =>
            decide (pos + max_range * (1/2) < s.distance_from_start)) ∧
        (∀ t ∈ (r :: rs).filter (fun s : RouteStation =>
            decide (pos + max_range * (1/2) < s.distance_from_start)),
          best.station.price ≤ t.station.price) ∧
        (∃ u v, (r :: rs).filter (fun s : RouteStation =>
            decide (pos + max_range * (1/2) < s.distance_from_start)) = u ++ best :: v ∧
          ∀ t ∈ u, best.station.price < t.station.price) ∧
        (∀ t ∈ (r :: rs).filter (fun s : RouteStation =>
            decide (pos + max_range * (1/2) < s.distance_from_start)),
          t.station.price = best.station.price →
            best.distance_from_start ≤ t.distance_from_start)) ∧
      ((r :: rs).filter (fun s : RouteStation =>
          decide (pos + max_range * (1/2) < s.distance_from_start)) = [] →
        best ∈ r :: rs ∧
        (∀ t ∈ r :: rs, best.station.price ≤ t.station.price) ∧
        (∃ u v, r :: rs = u ++ best :: v ∧
          ∀ t ∈ u, best.station.price < t.station.price) ∧
        (∀ t ∈ r :: rs, t.station.price = best.station.price →
          best.distance_from_start ≤ t.distance_from_start)) := by
  have hsort2 : (r :: rs).Pairwise
      (fun a b => a.distance_from_start ≤ b.distance_from_start) := by
    rw [← hre]; exact hsorted.filter _
  refine ⟨greedy_pick max_range pos r rs,
    greedy_aux_succ_reach max_range total stations fuel pos r rs hc hre, ?_, ?_⟩
  · intro hfar
    rcases hfq : (r :: rs).filter (fun s : RouteStation =>
        decide (pos + max_range * (1/2) < s.distance_from_start)) with _ | ⟨f, fs⟩
    · exact absurd hfq hfar
    · have hpick : greedy_pick max_range pos r rs =
          foldMin (fun s : RouteStation => s.station.price) f fs := by
        simp only [greedy_pick, hfq]
      rw [hpick]
      obtain ⟨u, v, hsplit, hfirst⟩ :=
        foldMin_first (fun s : RouteStation => s.station.price) f fs
      have hsortfar : (f :: fs).Pairwise
          (fun a b => a.distance_from_start ≤ b.distance_from_start) := by
        rw [← hfq]; exact hsort2.filter _
      exact ⟨foldMin_mem _ f fs, foldMin_le _ f fs, ⟨u, v, hsplit, hfirst⟩,
        first_min_dfs hsortfar hsplit hfirst⟩
  · intro hfq
    have hpick : greedy_pick max_range pos r rs =
        foldMin (fun s : RouteStation => s.station.price) r rs := by
      simp only [greedy_pick, hfq]
    rw [hpick]
    obtain ⟨u, v, hsplit, hfirst⟩ :=
      foldMin_first (fun s : RouteStation => s.station.price) r rs
    exact ⟨foldMin_mem _ r rs, foldMin_le _ r rs, ⟨u, v, hsplit, hfirst⟩,
      first_min_dfs hsort2 hsplit hfirst⟩

set_option maxRecDepth 40000 in
theorem claim_c4_witness :
    (((0:ℚ) + 500 < 600 ∧
      [⟨⟨"a", 3, some 0, some 0⟩, 300, 0⟩,
        (⟨⟨"b", 14/5, some 0, some 0⟩, 450, 0⟩ : RouteStation)].filter
          (fun s : RouteStation =>
            decide ((0:ℚ) < s.distance_from_start ∧ s.distance_from_start ≤ 0 + 500)) =
        [⟨⟨"a", 3, some 0, some 0⟩, 300, 0⟩, ⟨⟨"b", 14/5, some 0, some 0⟩, 450, 0⟩] ∧
      ([⟨⟨"a", 3, some 0, some 0⟩, 300, 0⟩,
        (⟨⟨"b", 14/5, some 0, some 0⟩, 450, 0⟩ : RouteStation)]).Pairwise
          (fun a b => a.distance_from_start ≤ b.distance_from_start))) ∧
      ∃ best : RouteStation,
        greedy_aux 500 600
            [⟨⟨"a", 3, some 0, some 0⟩, 300, 0⟩, ⟨⟨"b", 14/5, some 0, some 0⟩, 450, 0⟩] 1 0 =
          best :: greedy_aux 500 600
            [⟨⟨"a", 3, some 0, some 0⟩, 300, 0⟩, ⟨⟨"b", 14/5, some 0, some 0⟩, 450, 0⟩] 0
            best.distance_from_start :=
  ⟨⟨by with_unfolding_all decide, by with_unfolding_all decide, by with_unfolding_all decide⟩,
    (claim_c4_pick_cheapest 500 600
      [⟨⟨"a", 3, some 0, some 0⟩, 300, 0⟩, ⟨⟨"b", 14/5, some 0, some 0⟩, 450, 0⟩] 0 0
      ⟨⟨"a", 3, some 0, some 0⟩, 300, 0⟩ [⟨⟨"b", 14/5, some 0, some 0⟩, 450, 0⟩]
      (by with_unfolding_all decide) (by with_unfolding_all decide)
      (by with_unfolding_all decide)).elim
      (fun best hb => ⟨best, hb.1⟩)⟩

/-- C5 (confirmed): in every iteration where nothing is reachable the loop
terminates quietly if no station lies further ahead; otherwise it appends
the station of smallest `distance_from_start` among those ahead — a station
that is necessarily beyond the reachable window — and continues from it
with a full tank. -/
theorem claim_c5_fallback (max_range total : ℚ) (stations : List RouteStation)
    (fuel : ℕ) (pos : ℚ)
    (hc : pos + max_range < total)
    (hre : stations.filter (fun s : RouteStation =>
        decide (pos < s.distance_from_start ∧ s.distance_from_start ≤ pos + max_range)) = []) :
    (stations.filter (fun s : RouteStation => decide (pos < s.distance_from_start)) = [] →
      greedy_aux max_range total stations (fuel + 1) pos = []) ∧
    (∀ (a : RouteStation) (as_ : List RouteStation),
      stations.filter (fun s : RouteStation => decide (pos < s.distance_from_start)) = a :: as_ →
      ∃ nearest : RouteStation,
        greedy_aux max_range total stations (fuel + 1) pos =
          nearest :: greedy_aux max_range total stations fuel nearest.distance_from_start ∧
        nearest ∈ a :: as_ ∧
        (∀ t ∈ a :: as_, nearest.distance_from_start ≤ t.distance_from_start) ∧
        pos + max_range < nearest.distance_from_start) := by
  constructor
  · intro hah
    exact greedy_aux_succ_fallback_nil max_range total stations fuel pos hc hre hah
  · intro a as_ hah
    refine ⟨foldMin (fun s : RouteStation => s.distance_from_start) a as_,
      greedy_aux_succ_fallback_cons max_range total stations fuel pos a as_ hc hre hah,
      foldMin_mem _ a as_, foldMin_le _ a as_, ?_⟩
    obtain ⟨hmem, hgt⟩ := ahead_foldMin_mem stations pos a as_ hah
    by_contra hnot
    push_neg at hnot
    have hin : foldMin (fun s : RouteStation => s.distance_from_start) a as_ ∈
        stations.filter (fun s : RouteStation =>
          decide (pos < s.distance_from_start ∧ s.distance_from_start ≤ pos + max_range)) :=
      List.mem_filter.mpr ⟨hmem, decide_eq_true ⟨hgt, hnot⟩⟩
    rw [hre] at hin
    simp at hin

set_option maxRecDepth 40000 in
theorem claim_c5_witness :
    (((0:ℚ) + 500 < 1200 ∧
      [(⟨⟨"a", 3, some 0, some 0⟩, 600, 0⟩ : RouteStation)].filter
          (fun s : RouteStation =>
            decide ((0:ℚ) < s.distance_from_start ∧ s.distance_from_start ≤ 0 + 500)) = [] ∧
      [(⟨⟨"a", 3, some 0, some 0⟩, 600, 0⟩ : RouteStation)].filter
          (fun s : RouteStation => decide ((0:ℚ) < s.distance_from_start)) =
        [⟨⟨"a", 3, some 0, some 0⟩, 600, 0⟩])) ∧
      ∃ nearest : RouteStation,
        greedy_aux 500 1200 [⟨⟨"a", 3, some 0, some 0⟩, 600, 0⟩] 1 0 =
          nearest :: greedy_aux 500 1200 [⟨⟨"a", 3, some 0, some 0⟩, 600, 0⟩] 0
            nearest.distance_from_start ∧
        (0:ℚ) + 500 < nearest.distance_from_start :=
  ⟨⟨by with_unfolding_all decide, by with_unfolding_all decide, by with_unfolding_all decide⟩,
    ((claim_c5_fallback 500 1200 [⟨⟨"a", 3, some 0, some 0⟩, 600, 0⟩] 0 0
        (by with_unfolding_all decide) (by with_unfolding_all decide)).2
      ⟨⟨"a", 3, some 0, some 0⟩, 600, 0⟩ [] (by with_unfolding_all decide)).elim
      (fun nearest hb => ⟨nearest, hb.1, hb.2.2.2⟩)⟩

/-- C6 (confirmed): the projector output is a permutation of the
qualifying stations — those with both coordinates whose minimum distance to
a sampled route point is at most the 20-mile radius, annotated with the
cumulative distance of the first nearest sample point — sorted ascending by
`distance_from_start` with ties kept in input order (the per-key filtered
subsequences are untouched), with no price- or name-based tie-break. -/
theorem claim_c6_projector (dist : ℚ → ℚ → ℚ → ℚ → ℚ)
    (geometry : List (ℚ × ℚ)) (stations : List Station) :
    (find_stations_near_route dist geometry stations).Perm
      (stations.filterMap (project_station dist (route_pairs dist geometry))) ∧
    (find_stations_near_route dist geometry stations).Pairwise
      (fun a b => a.distance_from_start ≤ b.distance_from_start) ∧
    (∀ d : ℚ, (find_stations_near_route dist geometry stations).filter
        (fun s : RouteStation => decide (s.distance_from_start = d)) =
      (stations.filterMap (project_station dist (route_pairs dist geometry))).filter
        (fun s : RouteStation => decide (s.distance_from_start = d))) ∧
    ((route_pairs dist geometry).map Prod.fst =
      everyNth (max 1 (geometry.length / 500)) geometry) ∧
    (∀ s : Station, s.lat = none ∨ s.lon = none →
      project_station dist (route_pairs dist geometry) s = none) ∧
    (∀ (s : Station) (slat slon : ℚ), s.lat = some slat → s.lon = some slon →
      (station_pts dist (route_pairs dist geometry) slat slon = [] →
        project_station dist (route_pairs dist geometry) s = none) ∧
      (∀ rs : RouteStation,
        project_station dist (route_pairs dist geometry) s = some rs →
        rs.station = s ∧ rs.distance_to_route ≤ 20 ∧
        (∀ t ∈ station_pts dist (route_pairs dist geometry) slat slon,
          rs.distance_to_route ≤ t.1) ∧
        ∃ u v, station_pts dist (route_pairs dist geometry) slat slon =
            u ++ (rs.distance_to_route, rs.distance_from_start) :: v ∧
          ∀ t ∈ u, rs.distance_to_route < t.1) ∧
      (∀ p ∈ station_pts dist (route_pairs dist geometry) slat slon,
        (∀ t ∈ station_pts dist (route_pairs dist geometry) slat slon, p.1 ≤ t.1) →
        p.1 ≤ 20 →
        project_station dist (route_pairs dist geometry) s ≠ none)) := by
  have h1 : find_stations_near_route dist geometry stations =
      sort_by_dfs (stations.filterMap (project_station dist (route_pairs dist geometry))) := rfl
  refine ⟨?_, ?_, ?_, ?_, ?_, ?_⟩
  · rw [h1]; exact sort_by_dfs_perm _
  · rw [h1]; exact sort_by_dfs_pairwise _
  · intro d; rw [h1]; exact sort_by_dfs_filter _ d
  · exact zip_cumulative_fst dist _
  · intro s hs
    cases hl : s.lat <;> cases ho : s.lon <;> simp_all [project_station]
  · intro s slat slon hl ho
    refine ⟨?_, ?_, ?_⟩
    · intro hpts
      simp [project_station, hl, ho, station_scan, hpts]
    · intro rs hrs
      simp only [project_station, hl, ho, station_scan] at hrs
      rcases hq : station_pts dist (route_pairs dist geometry) slat slon with _ | ⟨p0, ps⟩
      · rw [hq] at hrs; simp at hrs
      · rw [hq] at hrs
        simp only at hrs
        by_cases h20 : (foldMin Prod.fst p0 ps).1 ≤ 20
        · rw [if_pos h20] at hrs
          have hrs2 : rs = ⟨s, (foldMin Prod.fst p0 ps).2, (foldMin Prod.fst p0 ps).1⟩ :=
            (Option.some.injEq _ _).mp hrs |>.symm
          subst hrs2
          obtain ⟨u, v, hsplit, hfirst⟩ := foldMin_first Prod.fst p0 ps
          exact ⟨rfl, h20, foldMin_le Prod.fst p0 ps, u, v, hsplit, hfirst⟩
        · rw [if_neg h20] at hrs
          simp at hrs
    · intro p hp hmin hle20 hcontra
      rcases hq : station_pts dist (route_pairs dist geometry) slat slon with _ | ⟨p0, ps⟩
      · rw [hq] at hp; simp at hp
      · rw [hq] at hp
        have hm : (foldMin Prod.fst p0 ps).1 ≤ p.1 := foldMin_le Prod.fst p0 ps p hp
        simp only [project_station, hl, ho, station_scan, hq] at hcontra
        rw [if_pos (le_trans hm hle20)] at hcontra
        simp at hcontra

theorem claim_c6_witness :
    (find_stations_near_route (fun _ _ _ _ => 0) [(0, 0), (0, 1)]
      [⟨"x", 2, some 0, some 0⟩]).Pairwise
        (fun a b => a.distance_from_start ≤ b.distance_from_start) :=
  (claim_c6_projector (fun _ _ _ _ => 0) [(0, 0), (0, 1)] [⟨"x", 2, some 0, some 0⟩]).2.1

set_option maxRecDepth 40000 in
/-- C8 counterexample: with `mpg = 3` and a 1000-mile route through the
stops-planned branch, the reported `total_gallons` is the rounded
`333.33`, not the exact `1000 / 3` the claim demands. -/
theorem claim_c8_counterexample :
    (find_optimal_fuel_stops (fun _ _ _ _ => 0) 500 3 [(0, 0), (1, 1)] 1000
      [⟨"s", 3, some 0, some 0⟩]).total_gallons ≠ 1000 / 3 := by
  with_unfolding_all decide

/-- C8 as amended: `total_gallons` is exactly `total / mpg` in the
no-stop-needed and no-stations outcomes and `round(total / mpg, 2)` in the
stops-planned outcome; `average_price_per_gallon` is only reported in the
stops-planned outcome, where it is `round(totalCost / totalGallons, 3)`
when `totalGallons > 0` and `0` otherwise. -/
theorem claim_c8_amended (dist : ℚ → ℚ → ℚ → ℚ → ℚ) (max_range mpg : ℚ)
    (geometry : List (ℚ × ℚ)) (total : ℚ) (stations : List Station) :
    ((find_optimal_fuel_stops dist max_range mpg geometry total stations).total_gallons =
      if total ≤ max_range then total / mpg
      else if find_stations_near_route dist geometry stations = [] then total / mpg
      else roundTo (total / mpg) 2) ∧
    ((find_optimal_fuel_stops dist max_range mpg geometry total stations).average_price_per_gallon =
      if total ≤ max_range then none
      else if find_stations_near_route dist geometry stations = [] then none
      else some (if 0 < total / mpg then
        roundTo ((calculate_total_cost mpg max_range total
          (greedy_fuel_stops max_range total
            (find_stations_near_route dist geometry stations))) / (total / mpg)) 3
        else 0)) := by
  by_cases h : total ≤ max_range
  · simp [find_optimal_fuel_stops, h]
  · rcases hrs : find_stations_near_route dist geometry stations with _ | ⟨r, rs⟩
    · simp [find_optimal_fuel_stops, h, hrs]
    · simp [find_optimal_fuel_stops, h, hrs]

set_option maxRecDepth 40000 in
/-- C9 counterexample: for a route with no coordinate sequence and
`total > max_range`, the computation does not fail: it returns the ordinary
soft no-stations result — stop list empty, gallons still reported, the
"plan manually" advisory message and the `error` flag — the very same value
the no-stations-near-route outcome produces. -/
theorem claim_c9_counterexample :
    find_optimal_fuel_stops (fun _ _ _ _ => 0) 500 10 [] 600 [⟨"s", 3, some 0, some 0⟩] =
      { optimal_stops := []
        total_gallons := 60
        total_fuel_cost := 0
        message := some "No fuel stations found near route. Please plan manually."
        error := true
        fuel_stops_count := none
        average_price_per_gallon := none } := by
  with_unfolding_all decide

/-- C9 as amended: with an empty coordinate sequence (and the route beyond
range) every station fails the near-route filter, and the computation
returns the soft "no fuel stations found" result — error flag set, totals
still reported — identical to the no-stations outcome; no failure is
propagated. -/
theorem claim_c9_amended (dist : ℚ → ℚ → ℚ → ℚ → ℚ) (max_range mpg total : ℚ)
    (stations : List Station) (h : ¬ total ≤ max_range) :
    find_optimal_fuel_stops dist max_range mpg [] total stations =
      { optimal_stops := []
        total_gallons := total / mpg
        total_fuel_cost := 0
        message := some "No fuel stations found near route. Please plan manually."
        error := true
        fuel_stops_count := none
        average_price_per_gallon := none } := by
  simp [find_optimal_fuel_stops, h, find_stations_near_route_empty_geometry]

theorem claim_c9_witness :
    ¬ ((600 : ℚ) ≤ 500) ∧
      find_optimal_fuel_stops (fun _ _ _ _ => 1) 500 10 [] 600 [⟨"t", 4, some 1, some 1⟩] =
        { optimal_stops := []
          total_gallons := 600 / 10
          total_fuel_cost := 0
          message := some "No fuel stations found near route. Please plan manually."
          error := true
          fuel_stops_count := none
          average_price_per_gallon := none } :=
  ⟨by with_unfolding_all decide,
    claim_c9_amended (fun _ _ _ _ => 1) 500 10 600 [⟨"t", 4, some 1, some 1⟩]
      (by with_unfolding_all decide)⟩
